import Mathlib

/-!
Shallow embedding of `src/lib/naive_bayes/gaussian.ts` (class `GaussianNB`),
a Gaussian naive Bayes classifier over a dense numeric backend.

Modelling conventions:
* Feature values and fitted parameters are embedded as exact rationals `ℚ`;
  the prediction pipeline runs over `FV`, an idealised IEEE value domain
  (exact reals extended with NaN, plus and minus infinity, and negative
  zero), so the special-value propagation of the density computation is
  captured exactly while finite arithmetic is exact rather than rounded.
* Class labels are embedded as `ℕ` (the class is generic over
  `number | string` with default `number`; every claim uses numeric
  labels).  JavaScript `Array.prototype.sort()` with no comparator orders
  elements by their decimal string representations compared by UTF-16 code
  units; on natural numbers this is the lexicographic order on big-endian
  digit lists, embedded below as `jsKey` and `keyLeB`.  JavaScript object
  keys are strings; since distinct naturals have distinct decimal strings,
  the grouping object in `fitModel` is keyed by the label itself.
* `tf.Tensor2D` values are embedded as `List (List ℚ)`; tensors built by
  `tf.tensor2d` are rectangular by construction, which the embedding checks
  at the points where the code constructs tensors from user data.
-/

namespace GNB

/-- Little-endian decimal digits of `n`, by fuel-bounded recursion
(`digitsRevAux fuel n` is correct whenever `n ≤ fuel`). -/
def digitsRevAux : Nat → Nat → List Nat
  | 0, _ => []
  | fuel + 1, n => if n = 0 then [] else n % 10 :: digitsRevAux fuel (n / 10)

/-- The decimal string JavaScript compares for a natural-number label,
as its big-endian digit list (UTF-16 order on digit characters coincides
with numeric order on single digits). -/
def jsKey (n : Nat) : List Nat := (digitsRevAux n n).reverse

/-- Value of a little-endian digit list; used to invert `digitsRevAux`. -/
def digitsVal : List Nat → Nat
  | [] => 0
  | d :: rest => d + 10 * digitsVal rest

/-- Lexicographic (UTF-16 string style) order on digit lists: the order the
JavaScript default sort comparator induces on decimal representations. -/
def keyLeB : List Nat → List Nat → Bool
  | [], _ => true
  | _ :: _, [] => false
  | a :: as, b :: bs => if a < b then true else if b < a then false else keyLeB as bs

/-- The order the JavaScript default sort comparator induces on
natural-number labels: compare decimal strings lexicographically. -/
def jsLe (a b : Nat) : Prop := keyLeB (jsKey a) (jsKey b) = true

instance : DecidableRel jsLe := fun a b =>
  inferInstanceAs (Decidable (keyLeB (jsKey a) (jsKey b) = true))

instance : IsRefl Nat jsLe :=
  ⟨by
    intro a
    unfold jsLe
    generalize jsKey a = l
    induction l with
    | nil => rfl
    | cons x xs ih => simp [keyLeB, ih]⟩

instance : IsTotal Nat jsLe :=
  ⟨by
    intro a b
    unfold jsLe
    generalize jsKey a = l₁
    generalize jsKey b = l₂
    induction l₁ generalizing l₂ with
    | nil => left; rfl
    | cons x xs ih =>
      cases l₂ with
      | nil => right; rfl
      | cons z zs =>
        rcases lt_trichotomy x z with h | h | h
        · left; simp [keyLeB, h]
        · subst h
          rcases ih zs with h2 | h2
          · left; simp [keyLeB, h2]
          · right; simp [keyLeB, h2]
        · right; simp [keyLeB, h]⟩

instance : IsTrans Nat jsLe :=
  ⟨by
    intro a b c
    unfold jsLe
    generalize jsKey a = l₁
    generalize jsKey b = l₂
    generalize jsKey c = l₃
    induction l₁ generalizing l₂ l₃ with
    | nil => intro _ _; rfl
    | cons x xs ih =>
      intro h1 h2
      cases l₂ with
      | nil => simp [keyLeB] at h1
      | cons z zs =>
        cases l₃ with
        | nil => simp [keyLeB] at h2
        | cons w ws =>
          rcases lt_trichotomy x z with hab | hab | hab
          · rcases lt_trichotomy z w with hbc | hbc | hbc
            · simp [keyLeB, lt_trans hab hbc]
            · subst hbc; simp [keyLeB, hab]
            · simp [keyLeB, hbc, Nat.not_lt.mpr (le_of_lt hbc), Nat.ne_of_gt hbc] at h2
          · subst hab
            rcases lt_trichotomy x w with hbc | hbc | hbc
            · simp [keyLeB, hbc]
            · subst hbc
              simp only [keyLeB, lt_irrefl, if_false] at h1 h2 ⊢
              exact ih zs ws h1 h2
            · simp [keyLeB, hbc, Nat.not_lt.mpr (le_of_lt hbc), Nat.ne_of_gt hbc] at h2
          · simp [keyLeB, hab, Nat.not_lt.mpr (le_of_lt hab), Nat.ne_of_gt hab] at h1⟩

instance : IsAntisymm Nat jsLe :=
  ⟨by
    intro a b h1 h2
    have hkey : jsKey a = jsKey b := by
      revert h1 h2
      unfold jsLe
      generalize jsKey a = l₁
      generalize jsKey b = l₂
      induction l₁ generalizing l₂ with
      | nil =>
        intro _ h2
        cases l₂ with
        | nil => rfl
        | cons z zs => simp [keyLeB] at h2
      | cons x xs ih =>
        intro h1 h2
        cases l₂ with
        | nil => simp [keyLeB] at h1
        | cons z zs =>
          rcases lt_trichotomy x z with h | h | h
          · simp [keyLeB, h, Nat.not_lt.mpr (le_of_lt h), Nat.ne_of_gt h] at h2
          · subst h
            simp only [keyLeB, lt_irrefl, if_false] at h1 h2
            rw [ih zs h1 h2]
          · simp [keyLeB, h, Nat.not_lt.mpr (le_of_lt h), Nat.ne_of_gt h] at h1
    have hval : ∀ fuel n, n ≤ fuel → digitsVal (digitsRevAux fuel n) = n := by
      intro fuel
      induction fuel with
      | zero => intro n hn; interval_cases n; rfl
      | succ f ih =>
        intro n hn
        by_cases h0 : n = 0
        · subst h0; simp [digitsRevAux, digitsVal]
        · have hdiv : n / 10 ≤ f := by
            have h1 : n / 10 < n := Nat.div_lt_self (Nat.pos_of_ne_zero h0) (by omega)
            omega
          simp only [digitsRevAux, if_neg h0, digitsVal, ih (n / 10) hdiv]
          omega
    have h : digitsRevAux a a = digitsRevAux b b := by
      have := congrArg List.reverse hkey
      simpa [jsKey] using this
    have ha := hval a a le_rfl
    have hb := hval b b le_rfl
    rw [h] at ha
    omega⟩

/-- Embedding of `[...new Set(y)]`: a JavaScript `Set` keeps the first
occurrence of each element in insertion order. -/
def jsSet (y : List Nat) : List Nat :=
  y.foldl (fun acc a => if a ∈ acc then acc else acc ++ [a]) []

/-- Embedding of `[...new Set(y)].sort()` in `fitModel` line 176: distinct
labels sorted by the JavaScript default (string) comparator.  The sort is
modelled by insertion sort; since distinct labels have distinct keys the
comparator is a total antisymmetric order, so any correct sort produces
this unique sorted arrangement. -/
def classCatalog (y : List Nat) : List Nat := List.insertionSort jsLe (jsSet y)

/-- One step of the `reduce` in `fitModel` lines 181-188: push the row onto
the group of its label (groups start empty). -/
def separateStep (g : Nat → List (List ℚ)) (p : List ℚ × Nat) : Nat → List (List ℚ) :=
  fun k => if k = p.2 then g p.2 ++ [p.1] else g k

/-- Embedding of `separatedByCategory` in `fitModel`: the
`zip(X, y).reduce(...)` grouping object, as a map from label to its rows.
Object keys are label strings; decimal strings of distinct naturals are
distinct, so the map is keyed by the label itself. -/
def separate (pairs : List (List ℚ × Nat)) : Nat → List (List ℚ) :=
  pairs.foldl separateStep (fun _ => [])

/-- First row of a matrix (`[]` when empty); `tf` shape entry `1` of a
rectangular `tensor2d` is the length of this row. -/
def headI (m : List (List ℚ)) : List ℚ := m.head?.getD []

/-- Column `j` of a matrix, reading missing entries as `0` (never exercised
on the rectangular matrices the code builds). -/
def colVals (m : List (List ℚ)) (j : Nat) : List ℚ := m.map (fun r => r.getD j 0)

/-- Per-column mean of `tf.moments(m, [0])`: sum over rows divided by the
row count. -/
def colMean (m : List (List ℚ)) (j : Nat) : ℚ := (colVals m j).sum / m.length

/-- Per-column variance of `tf.moments(m, [0])`: population variance,
mean of squared deviations with divisor equal to the row count. -/
def colVariance (m : List (List ℚ)) (j : Nat) : ℚ :=
  ((colVals m j).map (fun x => (x - colMean m j) ^ 2)).sum / m.length

/-- Embedding of `tf.moments(classFeatures, [0])`: the per-column mean and
population variance vectors of a class's row matrix. -/
def moments (m : List (List ℚ)) : List ℚ × List ℚ :=
  ((List.range (headI m).length).map (colMean m),
   (List.range (headI m).length).map (colVariance m))

/-- Result record of `fitModel`. -/
structure FitResult where
  classCategories : List Nat
  mean : List (List ℚ)
  variance : List (List ℚ)
  deriving DecidableEq

/-- Embedding of `GaussianNB.fitModel` (lines 168-219): sorted distinct
labels, per-class grouping, per-class `tf.moments`, and stacking of the
per-class mean and variance vectors. -/
def fitModel (X : List (List ℚ)) (y : List Nat) : FitResult :=
  let cats := classCatalog y
  let sep := separate (X.zip y)
  let momentStack := cats.map (fun c => moments (sep c))
  { classCategories := cats
    mean := momentStack.map Prod.fst
    variance := momentStack.map Prod.snd }

/-- The training rows whose label equals `c`, in order.  This is the
reference grouping described by the spec, to be compared with the
`separate` fold actually used by `fitModel`. -/
def specClassRows (X : List (List ℚ)) (y : List Nat) (c : Nat) : List (List ℚ) :=
  ((X.zip y).filter (fun p => p.2 = c)).map Prod.fst

/-- The spec's words for the fitted mean entry of class `c`, feature `j`:
the sample mean of feature `j` over exactly the rows labelled `c`. -/
def specMean (X : List (List ℚ)) (y : List Nat) (c : Nat) (j : Nat) : ℚ :=
  ((specClassRows X y c).map (fun r => r.getD j 0)).sum / (specClassRows X y c).length

/-- The spec's words for the fitted variance entry of class `c`, feature
`j`: the biased population variance (divisor = group size, no Bessel
correction) of feature `j` over exactly the rows labelled `c`. -/
def specVar (X : List (List ℚ)) (y : List Nat) (c : Nat) (j : Nat) : ℚ :=
  ((specClassRows X y c).map (fun r => (r.getD j 0 - specMean X y c j) ^ 2)).sum /
    (specClassRows X y c).length

/-- Internal state of a `GaussianNB` instance.  The three fields are
`undefined` (`none`) until the first `fit` or `fromJSON`. -/
structure State where
  classCategories : Option (List Nat)
  mean : Option (List (List ℚ))
  variance : Option (List (List ℚ))
  deriving DecidableEq

/-- A freshly constructed classifier: all fields undefined. -/
def initState : State := ⟨none, none, none⟩

/-- Failure modes of the embedded operations.  `dimensionMismatch` carries
the two lengths named by the thrown message (prediction input length and
summary length); `typeError` is the JavaScript `TypeError` raised by a
property access on `undefined`; `tensorShape` is a `tf` tensor-construction
failure; `invalidInput` comes from the input validators; `unfittedModel` is
the dedicated error class named by the spec's taxonomy, which nothing in
the source ever raises. -/
inductive Err where
  | invalidInput : Err
  | dimensionMismatch : Nat → Nat → Err
  | typeError : Err
  | tensorShape : Err
  | unfittedModel : Err
  deriving DecidableEq

/-- A matrix is rectangular when every row has the length of the first. -/
def rectangular (m : List (List ℚ)) : Prop := ∀ r ∈ m, r.length = (headI m).length

instance : DecidablePred rectangular := fun m =>
  inferInstanceAs (Decidable (∀ r ∈ m, r.length = (headI m).length))

/-- Modelled from the spec: `validateFitInputs` from `../ops` is an
external collaborator whose source is not in the repository; per spec
section 4.1 it rejects empty input, an `X`/`y` length mismatch, and a
ragged `X`. -/
def validateFitInputs (X : List (List ℚ)) (y : List Nat) : Except Err Unit :=
  if X = [] then .error .invalidInput
  else if y = [] then .error .invalidInput
  else if X.length ≠ y.length then .error .invalidInput
  else if rectangular X then .ok () else .error .invalidInput

/-- Modelled from the spec: `validateMatrix2D` from `../ops` is an external
collaborator whose source is not in the repository; per spec section 1 it
is a generic shape/emptiness check on a 2-D matrix. -/
def validateMatrix2D (X : List (List ℚ)) : Except Err Unit :=
  if X = [] then .error .invalidInput
  else if rectangular X then .ok () else .error .invalidInput

/-- Embedding of `GaussianNB.fit`: validate, then replace the whole state
with the result of `fitModel`. -/
def fit (_s : State) (X : List (List ℚ)) (y : List Nat) : Except Err State := do
  let _ ← validateFitInputs X y
  let f := fitModel X y
  .ok { classCategories := some f.classCategories
        mean := some f.mean
        variance := some f.variance }

/-- Embedding of `tf.tensor2d(values)` with inferred shape: fails unless
the nested array is a nonempty rectangular 2-D array, and otherwise holds
exactly the given entries. -/
def tensor2d (m : List (List ℚ)) : Except Err (List (List ℚ)) :=
  if m = [] then .error .tensorShape
  else if rectangular m then .ok m
  else .error .tensorShape

/-- The plain-data snapshot shape of `toJSON`/`fromJSON`.
`classCategories` is optional because an unfitted classifier's field is
`undefined` and `toJSON` copies the field verbatim. -/
structure Snapshot where
  classCategories : Option (List Nat)
  mean : List (List ℚ)
  variance : List (List ℚ)
  deriving DecidableEq

/-- Embedding of `GaussianNB.fromJSON` (lines 82-90): assign the snapshot's
class catalog verbatim and rebuild the two tensors with `tf.tensor2d`.
No recomputation happens and no comparison between the two shapes is made. -/
def fromJSON (_s : State) (snap : Snapshot) : Except Err State := do
  let m ← tensor2d snap.mean
  let v ← tensor2d snap.variance
  .ok { classCategories := snap.classCategories
        mean := some m
        variance := some v }

/-- Modelled from the spec: the generic `reshape` helper from `../ops`
(external collaborator, source not in the repository), row-major reshape of
a flat array into `r` rows of `c` entries. -/
def reshape2 (flat : List ℚ) : Nat → Nat → List (List ℚ)
  | 0, _ => []
  | r + 1, c => flat.take c :: reshape2 (flat.drop c) r c

/-- Embedding of `GaussianNB.toJSON` (lines 97-112): read each tensor back
with `dataSync` (row-major flatten) and reshape it to the tensor's shape.
Reading `dataSync` of an undefined tensor raises a `TypeError`. -/
def toJSON (s : State) : Except Err Snapshot :=
  match s.mean, s.variance with
  | some m, some v =>
      .ok { classCategories := s.classCategories
            mean := reshape2 m.flatten m.length (headI m).length
            variance := reshape2 v.flatten v.length (headI v).length }
  | _, _ => .error .typeError

/-- Idealised IEEE floating-point value: NaN, the two infinities, negative
zero, or an exact finite real (`fin 0` is positive zero).  Finite
arithmetic is exact (no rounding or overflow); the special values follow
the IEEE-754 rules implemented by the `tf` CPU backend. -/
inductive FV where
  | nan : FV
  | inf : FV
  | neginf : FV
  | nz : FV
  | fin : ℝ → FV

namespace FV

open Classical in
/-- IEEE subtraction on the value domain. -/
noncomputable def sub : FV → FV → FV
  | nan, _ => nan
  | _, nan => nan
  | inf, inf => nan
  | inf, _ => inf
  | neginf, neginf => nan
  | neginf, _ => neginf
  | nz, inf => neginf
  | nz, neginf => inf
  | nz, nz => fin 0
  | nz, fin y => if y = 0 then nz else fin (-y)
  | fin _, inf => neginf
  | fin _, neginf => inf
  | fin x, nz => fin x
  | fin x, fin y => fin (x - y)

open Classical in
/-- IEEE multiplication on the value domain. -/
noncomputable def mul : FV → FV → FV
  | nan, _ => nan
  | _, nan => nan
  | inf, inf => inf
  | inf, neginf => neginf
  | inf, nz => nan
  | inf, fin y => if 0 < y then inf else if y < 0 then neginf else nan
  | neginf, inf => neginf
  | neginf, neginf => inf
  | neginf, nz => nan
  | neginf, fin y => if 0 < y then neginf else if y < 0 then inf else nan
  | nz, inf => nan
  | nz, neginf => nan
  | nz, nz => fin 0
  | nz, fin y => if y < 0 then fin 0 else nz
  | fin x, inf => if 0 < x then inf else if x < 0 then neginf else nan
  | fin x, neginf => if 0 < x then neginf else if x < 0 then inf else nan
  | fin x, nz => if x < 0 then fin 0 else nz
  | fin x, fin y => if (x = 0 ∧ y < 0) ∨ (x < 0 ∧ y = 0) then nz else fin (x * y)

open Classical in
/-- IEEE division on the value domain. -/
noncomputable def div : FV → FV → FV
  | nan, _ => nan
  | _, nan => nan
  | inf, inf => nan
  | inf, neginf => nan
  | inf, nz => neginf
  | inf, fin y => if y < 0 then neginf else inf
  | neginf, inf => nan
  | neginf, neginf => nan
  | neginf, nz => inf
  | neginf, fin y => if y < 0 then inf else neginf
  | nz, inf => nz
  | nz, neginf => fin 0
  | nz, nz => nan
  | nz, fin y => if y = 0 then nan else if y < 0 then fin 0 else nz
  | fin x, inf => if x < 0 then nz else fin 0
  | fin x, neginf => if x < 0 then fin 0 else nz
  | fin x, nz => if x = 0 then nan else if x < 0 then inf else neginf
  | fin x, fin y =>
      if y = 0 then (if x = 0 then nan else if x < 0 then neginf else inf)
      else if x = 0 ∧ y < 0 then nz else fin (x / y)

/-- IEEE exponential on the value domain. -/
noncomputable def exp : FV → FV
  | nan => nan
  | inf => inf
  | neginf => fin 0
  | nz => fin 1
  | fin x => fin (Real.exp x)

open Classical in
/-- IEEE square root on the value domain (the square root of negative zero
is negative zero). -/
noncomputable def sqrt : FV → FV
  | nan => nan
  | inf => inf
  | neginf => nan
  | nz => nz
  | fin x => if x < 0 then nan else fin (Real.sqrt x)

/-- IEEE ordering used by the backend's comparisons: any comparison with
NaN is false, negative and positive zero compare equal. -/
def gt : FV → FV → Prop
  | nan, _ => False
  | _, nan => False
  | inf, inf => False
  | inf, _ => True
  | neginf, _ => False
  | nz, inf => False
  | nz, neginf => True
  | nz, nz => False
  | nz, fin y => y < 0
  | fin _, inf => False
  | fin _, neginf => True
  | fin x, nz => 0 < x
  | fin x, fin y => y < x

end FV

open Classical in
/-- Loop of the `tf` CPU `argMax` kernel: walk the remaining values,
replacing the running maximum only on a strictly greater value. -/
noncomputable def argMaxAux (maxIdx idx : Nat) (maxv : FV) : List FV → Nat
  | [] => maxIdx
  | v :: rest =>
      if FV.gt v maxv then argMaxAux idx (idx + 1) v rest
      else argMaxAux maxIdx (idx + 1) maxv rest

/-- Embedding of `.argMax()` as implemented by the `tf` CPU backend: the
index of the first strictly-greatest element, starting from the first
element as the initial maximum (so a leading NaN is never replaced, and a
later NaN never replaces anything). -/
noncomputable def argMaxTF : List FV → Nat
  | [] => 0
  | v :: rest => argMaxAux 0 1 v rest

/-- `Math.sqrt(Math.PI * 2)`, the constant `SQRT_2PI` of line 6. -/
noncomputable def sqrt2pi : ℝ := Real.sqrt (Real.pi * 2)

/-- Entry `(i, j)` of the density pipeline of `singlePredict` lines
137-151: `(1 / (SQRT_2PI * sqrt v)) * Real.exp ((-(x - mu) ^ 2) / (v * 2))`
computed step for step in IEEE arithmetic (`pow(_, 2)` squares by
multiplication). -/
noncomputable def densityEntry (xj mu v : ℝ) : FV :=
  FV.mul
    (FV.div (.fin 1) (FV.mul (.fin sqrt2pi) (FV.sqrt (.fin v))))
    (FV.exp (FV.div
      (FV.mul (FV.mul (FV.sub (.fin xj) (.fin mu)) (FV.sub (.fin xj) (.fin mu)))
        (.fin (-1)))
      (FV.mul (.fin v) (.fin 2))))

/-- Closed form of `densityEntry` when the variance is positive: the real
Gaussian density value the pipeline computes. -/
noncomputable def densityVal (xj mu v : ℝ) : ℝ :=
  1 / (sqrt2pi * Real.sqrt v) * Real.exp ((xj - mu) * (xj - mu) * (-1) / (v * 2))

/-- Row `i` of the broadcast density matrix: the input row against class
`i`'s mean and variance rows. -/
noncomputable def densityRow (x mrow vrow : List ℚ) : List FV :=
  (List.range x.length).map fun j =>
    densityEntry ((x.getD j 0 : ℚ) : ℝ) ((mrow.getD j 0 : ℚ) : ℝ) ((vrow.getD j 0 : ℚ) : ℝ)

/-- The `probabilityArray` matrix of `singlePredict`: one density row per
class. -/
noncomputable def probs (x : List ℚ) (m v : List (List ℚ)) : List (List FV) :=
  (List.range m.length).map fun i => densityRow x (m.getD i []) (v.getD i [])

/-- Embedding of `.prod(1)`: product of a density row in IEEE arithmetic. -/
noncomputable def prodFV (l : List FV) : FV := l.foldl FV.mul (.fin 1)

/-- Embedding of `GaussianNB.singlePredict` (lines 120-159).  The fallible
accesses happen in source order: `this.mean.shape` (TypeError when the
classifier is unfitted), the dimension check against `mean.shape[1]`
throwing with both lengths, then the density pipeline, `prod(1)`,
`argMax()` and the final catalog lookup (`none` models the JavaScript
`undefined` of an out-of-range index). -/
noncomputable def singlePredict (s : State) (x : List ℚ) : Except Err (Option Nat) :=
  match s.mean with
  | none => .error .typeError
  | some m =>
      if x.length ≠ (headI m).length then
        .error (.dimensionMismatch x.length (headI m).length)
      else
        match s.variance with
        | none => .error .typeError
        | some v =>
            match s.classCategories with
            | none => .error .typeError
            | some cc => .ok (cc[argMaxTF ((probs x m v).map prodFV)]?)

/-- Embedding of `GaussianNB.predict`: validate the batch, then map
`singlePredict` over its rows (an exception aborts the whole call). -/
noncomputable def predict (s : State) (X : List (List ℚ)) : Except Err (List (Option Nat)) := do
  let _ ← validateMatrix2D X
  X.mapM (singlePredict s)

theorem mem_foldl_jsSet : ∀ (y acc : List Nat) (x : Nat),
    (x ∈ y.foldl (fun acc a => if a ∈ acc then acc else acc ++ [a]) acc) ↔
      x ∈ acc ∨ x ∈ y := by
  intro y
  induction y with
  | nil => intro acc x; simp
  | cons a as ih =>
    intro acc x
    simp only [List.foldl_cons, ih, List.mem_cons]
    by_cases h : a ∈ acc
    · simp only [if_pos h]
      constructor
      · rintro (hx | hx)
        · exact Or.inl hx
        · exact Or.inr (Or.inr hx)
      · rintro (hx | hx | hx)
        · exact Or.inl hx
        · exact Or.inl (hx ▸ h)
        · exact Or.inr hx
    · simp only [if_neg h, List.mem_append, List.mem_singleton]
      tauto

theorem nodup_foldl_jsSet : ∀ (y acc : List Nat), acc.Nodup →
    (y.foldl (fun acc a => if a ∈ acc then acc else acc ++ [a]) acc).Nodup := by
  intro y
  induction y with
  | nil => intro acc h; exact h
  | cons a as ih =>
    intro acc h
    simp only [List.foldl_cons]
    by_cases ha : a ∈ acc
    · rw [if_pos ha]; exact ih acc h
    · rw [if_neg ha]
      refine ih _ ?_
      simp [List.nodup_append, h, ha]

theorem mem_jsSet (y : List Nat) (x : Nat) : x ∈ jsSet y ↔ x ∈ y := by
  unfold jsSet
  rw [mem_foldl_jsSet]
  simp

theorem nodup_jsSet (y : List Nat) : (jsSet y).Nodup :=
  nodup_foldl_jsSet y [] List.nodup_nil

theorem classCatalog_mem (y : List Nat) (x : Nat) : x ∈ classCatalog y ↔ x ∈ y := by
  unfold classCatalog
  rw [(List.perm_insertionSort jsLe (jsSet y)).mem_iff, mem_jsSet]

theorem classCatalog_nodup (y : List Nat) : (classCatalog y).Nodup :=
  (List.perm_insertionSort jsLe (jsSet y)).nodup_iff.mpr (nodup_jsSet y)

theorem classCatalog_sorted (y : List Nat) : (classCatalog y).Sorted jsLe :=
  List.sorted_insertionSort jsLe (jsSet y)

theorem foldl_separateStep_eq (pairs : List (List ℚ × Nat)) :
    ∀ (g : Nat → List (List ℚ)) (c : Nat),
      pairs.foldl separateStep g c =
        g c ++ (pairs.filter (fun p => p.2 = c)).map Prod.fst := by
  induction pairs with
  | nil => intro g c; simp
  | cons p rest ih =>
    intro g c
    simp only [List.foldl_cons, ih, List.filter_cons]
    by_cases h : p.2 = c
    · subst h
      simp [separateStep, List.append_assoc]
    · have h2 : ¬ c = p.2 := fun hc => h hc.symm
      simp [separateStep, h, h2]

/-- The grouping fold of `fitModel` produces, for each label, exactly the
rows of `X` carrying that label, in their original order. -/
theorem separate_eq_specClassRows (X : List (List ℚ)) (y : List Nat) (c : Nat) :
    separate (X.zip y) c = specClassRows X y c := by
  unfold separate specClassRows
  rw [foldl_separateStep_eq]
  rfl

theorem getD_map_eq {α β : Type} (l : List α) (f : α → β) (i : Nat) (dβ : β)
    (h : i < l.length) : (l.map f).getD i dβ = f l[i] := by
  have hm : i < (l.map f).length := by simpa using h
  rw [List.getD_eq_getElem _ _ hm]
  simp

/-- C3 counterexample: for `y = [2, 10]` the code's catalog is `[10, 2]`
because the JavaScript default sort compares the strings of the labels
and the first code unit of the string of `10` precedes that of `2`;
the claim's ascending numeric order `[2, 10]` is not produced. -/
theorem classCatalog_counterexample_C3 :
    classCatalog [2, 10] = [10, 2] ∧ classCatalog [2, 10] ≠ [2, 10] := by
  constructor
  · decide
  · decide

/-- C3 (amended): for every label sequence, the class catalog produced by
`fitModel` is the set of distinct values of `y` sorted ascending by the
lexicographic order of their decimal string representations (which differs
from numeric order once labels of different digit lengths mix); it is
deterministic and depends only on the set of labels, not on the order in
which they first appear in `y`. -/
theorem classCatalog_spec_C3 (y₁ y₂ : List Nat) (h : ∀ a, a ∈ y₁ ↔ a ∈ y₂) :
    classCatalog y₁ = classCatalog y₂ ∧
    (classCatalog y₁).Sorted jsLe ∧
    (classCatalog y₁).Nodup ∧
    (∀ a, a ∈ classCatalog y₁ ↔ a ∈ y₁) := by
  refine ⟨?_, classCatalog_sorted y₁, classCatalog_nodup y₁, classCatalog_mem y₁⟩
  have hperm : List.Perm (classCatalog y₁) (classCatalog y₂) :=
    (List.perm_ext_iff_of_nodup (classCatalog_nodup y₁) (classCatalog_nodup y₂)).mpr
      (fun a => by rw [classCatalog_mem, classCatalog_mem, h a])
  exact List.eq_of_perm_of_sorted hperm (classCatalog_sorted y₁) (classCatalog_sorted y₂)

/-- Witness for the amended C3 at two permuted concrete label lists. -/
theorem classCatalog_spec_C3_witness :
    classCatalog [3, 1, 2] = classCatalog [2, 3, 1] ∧
    (classCatalog [3, 1, 2]).Sorted jsLe ∧
    (classCatalog [3, 1, 2]).Nodup ∧
    (∀ a, a ∈ classCatalog [3, 1, 2] ↔ a ∈ [3, 1, 2]) :=
  classCatalog_spec_C3 [3, 1, 2] [2, 3, 1] (by intro a; simp; tauto)

/-- Every grouped row is a row of `X`. -/
theorem specClassRows_subset (X : List (List ℚ)) (y : List Nat) (c : Nat) :
    ∀ r ∈ specClassRows X y c, r ∈ X := by
  intro r hr
  obtain ⟨p, hp, hpr⟩ := List.mem_map.mp hr
  have hz : p ∈ X.zip y := List.mem_of_mem_filter hp
  exact hpr ▸ (List.of_mem_zip hz).1

/-- A label occurring in `y` has a nonempty group (given parallel lists). -/
theorem specClassRows_ne_nil (X : List (List ℚ)) (y : List Nat) (c : Nat)
    (hlen : X.length = y.length) (hc : c ∈ y) : specClassRows X y c ≠ [] := by
  obtain ⟨k, hk, hyk⟩ := List.mem_iff_getElem.mp hc
  have hkz : k < (X.zip y).length := by
    rw [List.length_zip, hlen]
    omega
  have hkX : k < X.length := by omega
  have hmem : (X[k], y[k]) ∈ X.zip y := by
    have := List.getElem_mem hkz
    rwa [List.getElem_zip] at this
  have hfil : (X[k], y[k]) ∈ (X.zip y).filter (fun p => p.2 = c) :=
    List.mem_filter.mpr ⟨hmem, by simp [hyk]⟩
  exact List.ne_nil_of_mem (List.mem_map_of_mem Prod.fst hfil)

/-- In a rectangular training set every grouped row has the feature
length. -/
theorem specClassRows_rect (X : List (List ℚ)) (y : List Nat) (c : Nat) (d : Nat)
    (hrect : ∀ r ∈ X, r.length = d) :
    ∀ r ∈ specClassRows X y c, r.length = d :=
  fun r hr => hrect r (specClassRows_subset X y c r hr)

theorem headI_length_of_rect (G : List (List ℚ)) (d : Nat) (hne : G ≠ [])
    (hrect : ∀ r ∈ G, r.length = d) : (headI G).length = d := by
  cases G with
  | nil => exact absurd rfl hne
  | cons r rest =>
    simpa [headI] using hrect r (List.mem_cons_self r rest)

/-- Core moment computation of `fitModel` (shared helper): per class and
feature, the grouped sample mean and population variance, with the stacked
shapes. -/
theorem fitModel_moments (X : List (List ℚ)) (y : List Nat) (d : Nat)
    (hlen : X.length = y.length) (hrect : ∀ r ∈ X, r.length = d) :
    (fitModel X y).classCategories = classCatalog y ∧
    (fitModel X y).mean.length = (classCatalog y).length ∧
    (fitModel X y).variance.length = (classCatalog y).length ∧
    ∀ i, i < (classCatalog y).length →
      ((fitModel X y).mean.getD i []).length = d ∧
      ((fitModel X y).variance.getD i []).length = d ∧
      ∀ j, j < d →
        ((fitModel X y).mean.getD i []).getD j 0 =
          specMean X y ((classCatalog y).getD i 0) j ∧
        ((fitModel X y).variance.getD i []).getD j 0 =
          specVar X y ((classCatalog y).getD i 0) j := by
  refine ⟨rfl, by simp [fitModel], by simp [fitModel], ?_⟩
  intro i hi
  have hcD : (classCatalog y).getD i 0 = (classCatalog y)[i] :=
    List.getD_eq_getElem _ _ hi
  set c := (classCatalog y)[i] with hcdef
  have hcy : c ∈ y := (classCatalog_mem y c).mp (List.getElem_mem hi)
  have hG := separate_eq_specClassRows X y c
  have hGne := specClassRows_ne_nil X y c hlen hcy
  have hGrect := specClassRows_rect X y c d hrect
  have hhead : (headI (specClassRows X y c)).length = d :=
    headI_length_of_rect _ d hGne hGrect
  have hmean : (fitModel X y).mean =
      (classCatalog y).map (fun k => (moments (separate (X.zip y) k)).1) := by
    simp [fitModel, List.map_map]
  have hvar : (fitModel X y).variance =
      (classCatalog y).map (fun k => (moments (separate (X.zip y) k)).2) := by
    simp [fitModel, List.map_map]
  have hmrow : (fitModel X y).mean.getD i [] =
      (List.range d).map (colMean (specClassRows X y c)) := by
    rw [hmean, getD_map_eq _ _ i [] hi, ← hcdef, hG]
    simp [moments, hhead]
  have hvrow : (fitModel X y).variance.getD i [] =
      (List.range d).map (colVariance (specClassRows X y c)) := by
    rw [hvar, getD_map_eq _ _ i [] hi, ← hcdef, hG]
    simp [moments, hhead]
  refine ⟨by rw [hmrow]; simp, by rw [hvrow]; simp, ?_⟩
  intro j hj
  have hjr : j < (List.range d).length := by simpa using hj
  constructor
  · rw [hmrow, getD_map_eq _ _ j 0 hjr, List.getElem_range, hcD]
    rfl
  · rw [hvrow, getD_map_eq _ _ j 0 hjr, List.getElem_range, hcD]
    simp only [colVariance, colVals, specVar, List.map_map]
    rfl

/-- C2: on a parallel, rectangular training set, `fitModel` computes, for
each class in `ClassCatalog` order and each feature column, the sample
mean and the biased population variance (divisor = group size) over
exactly the rows labelled with that class, stacked into matrices of shape
`[numClasses, numFeatures]`. -/
theorem fitModel_spec_C2 (X : List (List ℚ)) (y : List Nat) (d : Nat)
    (hlen : X.length = y.length) (hrect : ∀ r ∈ X, r.length = d) :
    (fitModel X y).classCategories = classCatalog y ∧
    (fitModel X y).mean.length = (classCatalog y).length ∧
    (fitModel X y).variance.length = (classCatalog y).length ∧
    ∀ i, i < (classCatalog y).length →
      ((fitModel X y).mean.getD i []).length = d ∧
      ((fitModel X y).variance.getD i []).length = d ∧
      ∀ j, j < d →
        ((fitModel X y).mean.getD i []).getD j 0 =
          specMean X y ((classCatalog y).getD i 0) j ∧
        ((fitModel X y).variance.getD i []).getD j 0 =
          specVar X y ((classCatalog y).getD i 0) j :=
  fitModel_moments X y d hlen hrect

/-- Witness for C2 at the spec's scenario training set. -/
theorem fitModel_spec_C2_witness :
    (fitModel [[1, 20], [2, 21], [3, 22], [4, 22]] [1, 0, 1, 0]).classCategories =
        classCatalog [1, 0, 1, 0] ∧
    (fitModel [[1, 20], [2, 21], [3, 22], [4, 22]] [1, 0, 1, 0]).mean.length =
        (classCatalog [1, 0, 1, 0]).length ∧
    (fitModel [[1, 20], [2, 21], [3, 22], [4, 22]] [1, 0, 1, 0]).variance.length =
        (classCatalog [1, 0, 1, 0]).length ∧
    ∀ i, i < (classCatalog [1, 0, 1, 0]).length →
      ((fitModel [[1, 20], [2, 21], [3, 22], [4, 22]] [1, 0, 1, 0]).mean.getD i []).length = 2 ∧
      ((fitModel [[1, 20], [2, 21], [3, 22], [4, 22]] [1, 0, 1, 0]).variance.getD i []).length = 2 ∧
      ∀ j, j < 2 →
        ((fitModel [[1, 20], [2, 21], [3, 22], [4, 22]] [1, 0, 1, 0]).mean.getD i []).getD j 0 =
          specMean [[1, 20], [2, 21], [3, 22], [4, 22]] [1, 0, 1, 0]
            ((classCatalog [1, 0, 1, 0]).getD i 0) j ∧
        ((fitModel [[1, 20], [2, 21], [3, 22], [4, 22]] [1, 0, 1, 0]).variance.getD i []).getD j 0 =
          specVar [[1, 20], [2, 21], [3, 22], [4, 22]] [1, 0, 1, 0]
            ((classCatalog [1, 0, 1, 0]).getD i 0) j :=
  fitModel_spec_C2 [[1, 20], [2, 21], [3, 22], [4, 22]] [1, 0, 1, 0] 2 rfl (by decide)

/-- C8 counterexample: `fromJSON` accepts a snapshot whose `mean` is a 1 by
1 matrix while `variance` is 2 by 2 and installs both verbatim; no
equal-shape consistency check between `mean` and `variance` exists, so the
claim that Import validates their shape consistency is false at this
input. -/
theorem fromJSON_counterexample_C8 :
    fromJSON initState ⟨some [0, 1], [[1]], [[1, 2], [3, 4]]⟩ =
      .ok ⟨some [0, 1], some [[1]], some [[1, 2], [3, 4]]⟩ ∧
    ([[(1 : ℚ)]].length ≠ [[(1 : ℚ), 2], [3, 4]].length) := by
  constructor
  · rfl
  · decide

/-- Successful import (shared helper): with each matrix separately
nonempty and rectangular, `fromJSON` installs the snapshot verbatim. -/
theorem fromJSON_ok (s : State) (snap : Snapshot)
    (hmne : snap.mean ≠ []) (hmr : rectangular snap.mean)
    (hvne : snap.variance ≠ []) (hvr : rectangular snap.variance) :
    fromJSON s snap =
      .ok ⟨snap.classCategories, some snap.mean, some snap.variance⟩ := by
  unfold fromJSON tensor2d
  rw [if_neg hmne, if_pos hmr, if_neg hvne, if_pos hvr]
  rfl

/-- C8 (amended): `fromJSON` replaces the class catalog, mean and variance
wholesale with the snapshot's values and performs no recomputation; the
only validation is `tf.tensor2d`'s own check that each matrix separately
is a nonempty rectangular 2-D array — there is no cross-check that `mean`
and `variance` have equal shape, so any pair of individually well-formed
matrices is accepted. -/
theorem fromJSON_spec_C8 (s : State) (snap : Snapshot)
    (hmne : snap.mean ≠ []) (hmr : rectangular snap.mean)
    (hvne : snap.variance ≠ []) (hvr : rectangular snap.variance) :
    fromJSON s snap =
      .ok ⟨snap.classCategories, some snap.mean, some snap.variance⟩ :=
  fromJSON_ok s snap hmne hmr hvne hvr

/-- Witness for the amended C8 at a concrete mismatched-shape snapshot. -/
theorem fromJSON_spec_C8_witness :
    fromJSON initState ⟨none, [[1], [2]], [[1, 2, 3]]⟩ =
      .ok ⟨none, some [[1], [2]], some [[1, 2, 3]]⟩ :=
  fromJSON_spec_C8 initState ⟨none, [[1], [2]], [[1, 2, 3]]⟩
    (by decide) (by decide) (by decide) (by decide)

theorem reshape2_flatten (m : List (List ℚ)) (c : Nat)
    (hc : ∀ r ∈ m, r.length = c) : reshape2 m.flatten m.length c = m := by
  induction m with
  | nil => rfl
  | cons r rest ih =>
    have hr : r.length = c := hc r (List.mem_cons_self r rest)
    have hrest : ∀ q ∈ rest, q.length = c :=
      fun q hq => hc q (List.mem_cons_of_mem r hq)
    simp only [List.flatten_cons, List.length_cons, reshape2]
    rw [← hr, List.take_left, List.drop_left, hr, ih hrest]

/-- C4: for every fitted state (defined catalog and nonempty rectangular
tensors) and every batch, `fromJSON` applied to the result of `toJSON`
restores the state exactly, so the restored classifier's `predict` on the
batch returns exactly the label sequence of the original classifier. -/
theorem roundtrip_spec_C4 (s : State) (cc : List Nat) (m v : List (List ℚ))
    (X : List (List ℚ))
    (hcc : s.classCategories = some cc) (hm : s.mean = some m)
    (hv : s.variance = some v) (hmne : m ≠ []) (hvne : v ≠ [])
    (hmr : rectangular m) (hvr : rectangular v) :
    ∃ snap : Snapshot, toJSON s = .ok snap ∧ fromJSON s snap = .ok s ∧
      ∀ s₂ : State, fromJSON s snap = .ok s₂ → predict s₂ X = predict s X := by
  obtain ⟨sc, sm, sv⟩ := s
  simp only at hcc hm hv
  subst hcc; subst hm; subst hv
  refine ⟨⟨some cc, m, v⟩, ?_, ?_, ?_⟩
  · show toJSON ⟨some cc, some m, some v⟩ = _
    unfold toJSON
    simp only
    rw [reshape2_flatten m _ hmr, reshape2_flatten v _ hvr]
  · have := fromJSON_ok ⟨some cc, some m, some v⟩ ⟨some cc, m, v⟩
      hmne hmr hvne hvr
    exact this
  · intro s₂ h2
    have h3 : fromJSON ⟨some cc, some m, some v⟩ ⟨some cc, m, v⟩ =
        .ok ⟨some cc, some m, some v⟩ :=
      fromJSON_ok _ _ hmne hmr hvne hvr
    rw [h3] at h2
    cases h2
    rfl

/-- Witness for C4 at the spec scenario's fitted parameters and batch. -/
theorem roundtrip_spec_C4_witness :
    ∃ snap : Snapshot,
      toJSON ⟨some [0, 1], some [[3, 43/2], [2, 21]], some [[1, 1/4], [1, 1]]⟩ = .ok snap ∧
      fromJSON ⟨some [0, 1], some [[3, 43/2], [2, 21]], some [[1, 1/4], [1, 1]]⟩ snap =
        .ok ⟨some [0, 1], some [[3, 43/2], [2, 21]], some [[1, 1/4], [1, 1]]⟩ ∧
      ∀ s₂ : State,
        fromJSON ⟨some [0, 1], some [[3, 43/2], [2, 21]], some [[1, 1/4], [1, 1]]⟩ snap =
          .ok s₂ →
        predict s₂ [[1, 20]] =
          predict ⟨some [0, 1], some [[3, 43/2], [2, 21]], some [[1, 1/4], [1, 1]]⟩ [[1, 20]] :=
  roundtrip_spec_C4 ⟨some [0, 1], some [[3, 43/2], [2, 21]], some [[1, 1/4], [1, 1]]⟩
    [0, 1] [[3, 43/2], [2, 21]] [[1, 1/4], [1, 1]] [[1, 20]]
    rfl rfl rfl (by decide) (by decide) (by decide) (by decide)

namespace FV

theorem mul_nan_right (a : FV) : mul a nan = nan := by cases a <;> rfl

theorem mul_nan_left (a : FV) : mul nan a = nan := by cases a <;> rfl

theorem sub_fin_fin (x y : ℝ) : sub (fin x) (fin y) = fin (x - y) := rfl

theorem mul_fin_self (x : ℝ) : mul (fin x) (fin x) = fin (x * x) := by
  simp only [mul]
  rw [if_neg]
  rintro (⟨h1, h2⟩ | ⟨h2, h1⟩) <;> exact absurd (h1 ▸ h2) (lt_irrefl 0)

theorem mul_fin_fin_posL (x y : ℝ) (hx : 0 < x) : mul (fin x) (fin y) = fin (x * y) := by
  simp only [mul]
  rw [if_neg]
  rintro (⟨h1, _⟩ | ⟨h1, _⟩)
  · exact absurd h1 (ne_of_gt hx)
  · exact lt_asymm hx h1

theorem mul_fin_fin_posR (x y : ℝ) (hy : 0 < y) : mul (fin x) (fin y) = fin (x * y) := by
  simp only [mul]
  rw [if_neg]
  rintro (⟨_, h1⟩ | ⟨_, h1⟩)
  · exact lt_asymm hy h1
  · exact absurd h1 (ne_of_gt hy)

theorem mul_fin_zero_negR (y : ℝ) (hy : y < 0) : mul (fin 0) (fin y) = nz := by
  simp [mul, hy]

theorem div_fin_fin_posR (x y : ℝ) (hy : 0 < y) : div (fin x) (fin y) = fin (x / y) := by
  simp only [div]
  rw [if_neg (ne_of_gt hy), if_neg]
  rintro ⟨_, h⟩
  exact lt_asymm hy h

theorem div_fin_zero_posL (x : ℝ) (hx : 0 < x) : div (fin x) (fin 0) = inf := by
  simp [div, ne_of_gt hx, lt_asymm hx]

theorem div_nz_fin_posR (y : ℝ) (hy : 0 < y) : div nz (fin y) = nz := by
  simp only [div]
  rw [if_neg (ne_of_gt hy), if_neg (not_lt.mpr hy.le)]

theorem div_nz_fin_zero : div nz (fin 0) = nan := by
  simp [div]

theorem sqrt_fin_nonneg (x : ℝ) (hx : 0 ≤ x) : sqrt (fin x) = fin (Real.sqrt x) := by
  simp only [sqrt]
  rw [if_neg (not_lt.mpr hx)]

theorem exp_fin_eq (x : ℝ) : exp (fin x) = fin (Real.exp x) := rfl

theorem not_gt_nan (a : FV) : ¬ gt a nan := by
  intro h
  cases a <;> exact h.elim

theorem not_nan_gt (a : FV) : ¬ gt nan a := by
  intro h
  cases a <;> exact h.elim

theorem gt_fin_fin (x y : ℝ) : gt (fin x) (fin y) ↔ y < x := Iff.rfl

end FV

theorem argMaxAux_nan (l : List FV) : ∀ (mi i : Nat), argMaxAux mi i FV.nan l = mi := by
  induction l with
  | nil => intro mi i; rfl
  | cons v rest ih =>
    intro mi i
    simp only [argMaxAux]
    rw [if_neg (FV.not_gt_nan v)]
    exact ih mi (i + 1)

/-- A NaN first score is never replaced: `argMax` returns index 0. -/
theorem argMaxTF_nan_head (l : List FV) : argMaxTF (FV.nan :: l) = 0 := by
  simp only [argMaxTF]
  exact argMaxAux_nan l 0 1

theorem argMaxTF_pair_of_gt (a b : FV) (h : FV.gt b a) : argMaxTF [a, b] = 1 := by
  simp only [argMaxTF, argMaxAux]
  rw [if_pos h]

theorem argMaxTF_pair_of_not_gt (a b : FV) (h : ¬ FV.gt b a) : argMaxTF [a, b] = 0 := by
  simp only [argMaxTF, argMaxAux]
  rw [if_neg h]

theorem foldl_mul_nan_acc (l : List FV) : l.foldl FV.mul FV.nan = FV.nan := by
  induction l with
  | nil => rfl
  | cons v rest ih => simpa [FV.mul_nan_left] using ih

theorem foldl_mul_of_nan_mem (l : List FV) : ∀ acc : FV, FV.nan ∈ l →
    l.foldl FV.mul acc = FV.nan := by
  induction l with
  | nil => intro acc h; cases h
  | cons v rest ih =>
    intro acc h
    rcases List.mem_cons.mp h with rfl | h2
    · simp only [List.foldl_cons, FV.mul_nan_right]
      exact foldl_mul_nan_acc rest
    · exact ih _ h2

/-- A NaN factor makes the whole row product NaN. -/
theorem prodFV_nan_mem (l : List FV) (h : FV.nan ∈ l) : prodFV l = FV.nan :=
  foldl_mul_of_nan_mem l _ h

theorem sqrt2pi_pos : 0 < sqrt2pi :=
  Real.sqrt_pos.mpr (by positivity)

theorem densityVal_pos (xj mu v : ℝ) (hv : 0 < v) : 0 < densityVal xj mu v := by
  unfold densityVal
  have h1 : 0 < sqrt2pi * Real.sqrt v :=
    mul_pos sqrt2pi_pos (Real.sqrt_pos.mpr hv)
  exact mul_pos (div_pos one_pos h1) (Real.exp_pos _)

/-- For positive variance the pipeline stays in finite IEEE values and
computes exactly the Gaussian density `densityVal`. -/
theorem densityEntry_eq_val (xj mu v : ℝ) (hv : 0 < v) :
    densityEntry xj mu v = .fin (densityVal xj mu v) := by
  have hsv : 0 < Real.sqrt v := Real.sqrt_pos.mpr hv
  have hin : 0 < sqrt2pi * Real.sqrt v := mul_pos sqrt2pi_pos hsv
  unfold densityEntry densityVal
  rw [FV.sqrt_fin_nonneg v hv.le, FV.mul_fin_fin_posL _ _ sqrt2pi_pos,
    FV.div_fin_fin_posR _ _ hin, FV.sub_fin_fin, FV.mul_fin_self,
    FV.mul_fin_fin_posR v 2 (by norm_num)]
  by_cases hd : xj - mu = 0
  · rw [hd]
    have h00 : ((0 : ℝ) * 0) = 0 := by norm_num
    rw [h00, FV.mul_fin_zero_negR (-1) (by norm_num),
      FV.div_nz_fin_posR _ (by positivity)]
    show FV.mul _ (FV.fin 1) = _
    rw [FV.mul_fin_fin_posR _ 1 one_pos]
    norm_num [Real.exp_zero]
  · have hdd : 0 < (xj - mu) * (xj - mu) := mul_self_pos.mpr hd
    rw [FV.mul_fin_fin_posL _ _ hdd, FV.div_fin_fin_posR _ _ (by positivity),
      FV.exp_fin_eq, FV.mul_fin_fin_posR _ _ (Real.exp_pos _)]

/-- Per-feature density of a zero-variance class at its exact mean: the
exponent is `-0 / 0 = NaN`, the coefficient is `1 / +0 = +infinity`, and
their product is NaN. -/
theorem densityEntry_zero_var_at_mean (x : ℝ) : densityEntry x x 0 = FV.nan := by
  unfold densityEntry
  rw [FV.sub_fin_fin, sub_self]
  have h00 : FV.mul (FV.fin 0) (FV.fin 0) = FV.fin 0 := by
    rw [FV.mul_fin_self]; norm_num
  rw [h00, FV.mul_fin_zero_negR (-1) (by norm_num),
    FV.mul_fin_fin_posR 0 2 (by norm_num)]
  have h02 : ((0 : ℝ) * 2) = 0 := by norm_num
  rw [h02, FV.div_nz_fin_zero, FV.sqrt_fin_nonneg 0 le_rfl, Real.sqrt_zero,
    FV.mul_fin_fin_posL _ _ sqrt2pi_pos, mul_zero, FV.div_fin_zero_posL 1 one_pos]
  exact FV.mul_nan_right _

/-- Shared helper: a zero-variance feature at its exact mean makes the
density entry and the row product NaN. -/
theorem densityRow_zero_var_nan (x mrow vrow : List ℚ) (j : Nat)
    (hj : j < x.length) (hv : vrow.getD j 0 = 0)
    (hx : x.getD j 0 = mrow.getD j 0) :
    (densityRow x mrow vrow).getD j FV.nan = FV.nan ∧
    prodFV (densityRow x mrow vrow) = FV.nan := by
  have hentry : densityEntry ((x.getD j 0 : ℚ) : ℝ) ((mrow.getD j 0 : ℚ) : ℝ)
      ((vrow.getD j 0 : ℚ) : ℝ) = FV.nan := by
    rw [hx, hv]
    push_cast
    exact densityEntry_zero_var_at_mean _
  have hjr : j < (List.range x.length).length := by simpa using hj
  have hgd : (densityRow x mrow vrow).getD j FV.nan = FV.nan := by
    unfold densityRow
    rw [getD_map_eq _ _ j FV.nan hjr, List.getElem_range]
    exact hentry
  refine ⟨hgd, prodFV_nan_mem _ ?_⟩
  have hmem : FV.nan ∈ densityRow x mrow vrow := by
    rw [← hentry]
    unfold densityRow
    exact List.mem_map_of_mem _ (List.mem_range.mpr hj)
  exact hmem

/-- C10: if `variance[i][j] = 0` and the predicted row has
`row[j] = mean[i][j]`, the per-feature density computed for that class and
feature is NaN (not `+infinity` and not a positive density), and therefore
the whole class score - the row product - is NaN. -/
theorem zero_variance_nan_C10 (x mrow vrow : List ℚ) (j : Nat)
    (hj : j < x.length) (hv : vrow.getD j 0 = 0)
    (hx : x.getD j 0 = mrow.getD j 0) :
    (densityRow x mrow vrow).getD j FV.nan = FV.nan ∧
    prodFV (densityRow x mrow vrow) = FV.nan :=
  densityRow_zero_var_nan x mrow vrow j hj hv hx

/-- Witness for C10 at a one-feature model with zero variance, predicting
exactly the mean. -/
theorem zero_variance_nan_C10_witness :
    ((densityRow [5] [5] [0]).getD 0 FV.nan = FV.nan ∧
      prodFV (densityRow [5] [5] [0]) = FV.nan) :=
  zero_variance_nan_C10 [5] [5] [0] 0 (by decide) rfl rfl

/-- A one-row batch always passes the generic 2-D matrix validation. -/
theorem validateMatrix2D_singleton (r : List ℚ) : validateMatrix2D [r] = .ok () := by
  unfold validateMatrix2D
  rw [if_neg (by simp), if_pos]
  intro q hq
  rcases List.mem_singleton.mp hq with rfl
  rfl

/-- A one-row batch reduces to `singlePredict` on the row. -/
theorem predict_singleton (s : State) (r : List ℚ) :
    predict s [r] = Except.map (fun o => [o]) (singlePredict s r) := by
  unfold predict
  rw [validateMatrix2D_singleton]
  cases h : singlePredict s r <;>
    (simp [List.mapM, List.mapM.loop, h, Except.map]; rfl)

/-- C6: on a fitted model, predicting a row whose length differs from the
trained feature count (`mean.shape[1]`) fails with the dimension error
naming the row length and the summary length; a row of matching length
raises no error and produces a prediction. -/
theorem predict_dimension_C6 (s : State) (cc : List Nat) (m v : List (List ℚ))
    (hcc : s.classCategories = some cc) (hm : s.mean = some m)
    (hv : s.variance = some v) (r : List ℚ) :
    (r.length ≠ (headI m).length →
      predict s [r] = .error (.dimensionMismatch r.length (headI m).length)) ∧
    (r.length = (headI m).length →
      predict s [r] = .ok [cc[argMaxTF ((probs r m v).map prodFV)]?]) := by
  obtain ⟨sc, sm, sv⟩ := s
  simp only at hcc hm hv
  subst hcc; subst hm; subst hv
  constructor
  · intro hne
    rw [predict_singleton]
    have h : singlePredict ⟨some cc, some m, some v⟩ r =
        .error (.dimensionMismatch r.length (headI m).length) := by
      simp [singlePredict, hne]
    rw [h]
    rfl
  · intro heq
    rw [predict_singleton]
    have h : singlePredict ⟨some cc, some m, some v⟩ r =
        .ok (cc[argMaxTF ((probs r m v).map prodFV)]?) := by
      simp [singlePredict, heq]
    rw [h]
    rfl

/-- Witness for C6 at the spec scenario's fitted model, with a wrong-length
and a matching-length row. -/
theorem predict_dimension_C6_witness :
    (([(1 : ℚ), 2, 3].length ≠
        (headI [[3, 43/2], [2, 21]]).length →
      predict ⟨some [0, 1], some [[3, 43/2], [2, 21]], some [[1, 1/4], [1, 1]]⟩
          [[1, 2, 3]] =
        .error (.dimensionMismatch [(1 : ℚ), 2, 3].length
          (headI [[3, 43/2], [2, 21]]).length)) ∧
    ([(1 : ℚ), 2, 3].length = (headI [[3, 43/2], [2, 21]]).length →
      predict ⟨some [0, 1], some [[3, 43/2], [2, 21]], some [[1, 1/4], [1, 1]]⟩
          [[1, 2, 3]] =
        .ok [[0, 1][argMaxTF ((probs [1, 2, 3] [[3, 43/2], [2, 21]]
          [[1, 1/4], [1, 1]]).map prodFV)]?])) ∧
    (([(1 : ℚ), 20].length ≠ (headI [[3, 43/2], [2, 21]]).length →
      predict ⟨some [0, 1], some [[3, 43/2], [2, 21]], some [[1, 1/4], [1, 1]]⟩
          [[1, 20]] =
        .error (.dimensionMismatch [(1 : ℚ), 20].length
          (headI [[3, 43/2], [2, 21]]).length)) ∧
    ([(1 : ℚ), 20].length = (headI [[3, 43/2], [2, 21]]).length →
      predict ⟨some [0, 1], some [[3, 43/2], [2, 21]], some [[1, 1/4], [1, 1]]⟩
          [[1, 20]] =
        .ok [[0, 1][argMaxTF ((probs [1, 20] [[3, 43/2], [2, 21]]
          [[1, 1/4], [1, 1]]).map prodFV)]?])) :=
  ⟨predict_dimension_C6
      ⟨some [0, 1], some [[3, 43/2], [2, 21]], some [[1, 1/4], [1, 1]]⟩
      [0, 1] [[3, 43/2], [2, 21]] [[1, 1/4], [1, 1]] rfl rfl rfl [1, 2, 3],
    predict_dimension_C6
      ⟨some [0, 1], some [[3, 43/2], [2, 21]], some [[1, 1/4], [1, 1]]⟩
      [0, 1] [[3, 43/2], [2, 21]] [[1, 1/4], [1, 1]] rfl rfl rfl [1, 20]⟩

/-- C7 counterexample: predicting on a freshly constructed classifier does
fail, but with the TypeError of reading `shape` from the undefined `mean`
tensor - not with a dedicated `UnfittedModelError` (no such check or error
class exists in the source). -/
theorem predict_unfitted_counterexample_C7 :
    predict initState [[1]] = .error Err.typeError ∧
    predict initState [[1]] ≠ .error Err.unfittedModel := by
  have h : predict initState [[1]] = .error Err.typeError := rfl
  refine ⟨h, ?_⟩
  rw [h]
  intro hc
  cases hc

/-- C7 (amended): calling predict before any fit or restore fails on every
well-formed batch - with the TypeError from the undefined-tensor access in
`singlePredict`, not with a dedicated `UnfittedModelError`. -/
theorem predict_unfitted_spec_C7 (X : List (List ℚ)) (hne : X ≠ [])
    (hrect : rectangular X) :
    predict initState X = .error Err.typeError := by
  unfold predict validateMatrix2D
  rw [if_neg hne, if_pos hrect]
  cases X with
  | nil => exact absurd rfl hne
  | cons r rest => rfl

/-- Witness for the amended C7 on a concrete batch. -/
theorem predict_unfitted_spec_C7_witness :
    predict initState [[2], [3]] = .error Err.typeError :=
  predict_unfitted_spec_C7 [[2], [3]] (by decide) (by decide)

/-- C9: prediction is deterministic - a pure function of the model fields
(classCategories, mean, variance) and the input row; two classifiers with
equal fields produce identical predictions on every row and batch. -/
theorem predict_deterministic_C9 (s t : State) (x : List ℚ)
    (hcc : s.classCategories = t.classCategories) (hm : s.mean = t.mean)
    (hv : s.variance = t.variance) :
    singlePredict s x = singlePredict t x ∧ ∀ X, predict s X = predict t X := by
  obtain ⟨a, b, c⟩ := s
  obtain ⟨a', b', c'⟩ := t
  simp only at hcc hm hv
  subst hcc; subst hm; subst hv
  exact ⟨rfl, fun _ => rfl⟩

/-- Witness for C9 at the spec scenario's fitted model. -/
theorem predict_deterministic_C9_witness :
    singlePredict ⟨some [0, 1], some [[3, 43/2], [2, 21]], some [[1, 1/4], [1, 1]]⟩ [1, 20] =
      singlePredict ⟨some [0, 1], some [[3, 43/2], [2, 21]], some [[1, 1/4], [1, 1]]⟩ [1, 20] ∧
    ∀ X, predict ⟨some [0, 1], some [[3, 43/2], [2, 21]], some [[1, 1/4], [1, 1]]⟩ X =
      predict ⟨some [0, 1], some [[3, 43/2], [2, 21]], some [[1, 1/4], [1, 1]]⟩ X :=
  predict_deterministic_C9
    ⟨some [0, 1], some [[3, 43/2], [2, 21]], some [[1, 1/4], [1, 1]]⟩
    ⟨some [0, 1], some [[3, 43/2], [2, 21]], some [[1, 1/4], [1, 1]]⟩
    [1, 20] rfl rfl rfl

/-- Product of a two-entry density row whose first factor is a positive
finite value. -/
theorem prodFV_pair_fin_pos (a b : ℝ) (ha : 0 < a) :
    prodFV [.fin a, .fin b] = .fin (1 * a * b) := by
  simp only [prodFV, List.foldl_cons, List.foldl_nil]
  rw [FV.mul_fin_fin_posL 1 a one_pos, FV.mul_fin_fin_posL _ _ (mul_pos one_pos ha)]

/-- The class-1 score of the spec scenario strictly exceeds the class-0
score: reduced to `2 < Real.exp (11/2)`. -/
theorem scenario_ineq :
    densityVal 1 3 1 * densityVal 20 (43/2) (1/4) <
      densityVal 1 2 1 * densityVal 20 21 1 := by
  have hs2 : sqrt2pi * sqrt2pi = Real.pi * 2 := Real.mul_self_sqrt (by positivity)
  have hsp := sqrt2pi_pos
  have hs0 : sqrt2pi ≠ 0 := ne_of_gt hsp
  have hpi : Real.pi ≠ 0 := ne_of_gt Real.pi_pos
  have hq : Real.sqrt (1/4 : ℝ) = 1/2 := by
    rw [show (1/4 : ℝ) = (1/2)^2 by norm_num, Real.sqrt_sq (by norm_num : (0:ℝ) ≤ 1/2)]
  have lhs_eq : densityVal 1 3 1 * densityVal 20 (43/2) (1/4) =
      2 * (Real.exp (-2) * Real.exp (-(9/2))) / (Real.pi * 2) := by
    unfold densityVal
    rw [Real.sqrt_one, hq]
    rw [show ((1:ℝ) - 3) * (1 - 3) * (-1) / (1 * 2) = -2 by norm_num]
    rw [show ((20:ℝ) - 43/2) * (20 - 43/2) * (-1) / (1/4 * 2) = -(9/2) by norm_num]
    field_simp
    rw [hs2]
    ring
  have rhs_eq : densityVal 1 2 1 * densityVal 20 21 1 =
      Real.exp (-(1/2)) * Real.exp (-(1/2)) / (Real.pi * 2) := by
    unfold densityVal
    rw [Real.sqrt_one]
    rw [show ((1:ℝ) - 2) * (1 - 2) * (-1) / (1 * 2) = -(1/2) by norm_num]
    rw [show ((20:ℝ) - 21) * (20 - 21) * (-1) / (1 * 2) = -(1/2) by norm_num]
    field_simp
    rw [hs2]
  have hprod1 : Real.exp (-2 : ℝ) * Real.exp (-(9/2) : ℝ) = Real.exp (-(13/2) : ℝ) := by
    rw [← Real.exp_add]; norm_num
  have hprod2 : Real.exp (-(1/2) : ℝ) * Real.exp (-(1/2) : ℝ) = Real.exp (-1 : ℝ) := by
    rw [← Real.exp_add]; norm_num
  have hkey : 2 * Real.exp (-(13/2) : ℝ) < Real.exp (-1 : ℝ) := by
    have h1 : (2 : ℝ) < Real.exp 1 := lt_trans (by norm_num) Real.exp_one_gt_d9
    have h2 : Real.exp 1 ≤ Real.exp ((11:ℝ)/2) := Real.exp_le_exp.mpr (by norm_num)
    have h3 := mul_lt_mul_of_pos_right (lt_of_lt_of_le h1 h2) (Real.exp_pos (-(13/2) : ℝ))
    calc 2 * Real.exp (-(13/2) : ℝ)
        < Real.exp ((11:ℝ)/2) * Real.exp (-(13/2) : ℝ) := h3
      _ = Real.exp (-1 : ℝ) := by rw [← Real.exp_add]; norm_num
  rw [lhs_eq, rhs_eq, hprod1, hprod2]
  exact (div_lt_div_iff_of_pos_right (by positivity)).mpr hkey

/-- Concrete evaluation of `fitModel` on the spec scenario training set. -/
theorem scenario_fitModel :
    fitModel [[1, 20], [2, 21], [3, 22], [4, 22]] [1, 0, 1, 0] =
      ⟨[0, 1], [[3, 43/2], [2, 21]], [[1, 1/4], [1, 1]]⟩ := by
  have hcats : classCatalog [1, 0, 1, 0] = [0, 1] := by decide
  simp only [fitModel, hcats]
  norm_num [separate, separateStep, List.foldl, moments, colMean, colVariance,
    colVals, headI, List.zip, List.zipWith, List.filter, List.map, List.range_succ,
    List.sum_cons, List.head?, List.getD]

/-- The scenario's density matrix in symbolic form. -/
theorem scenario_probs :
    probs [1, 20] [[3, 43/2], [2, 21]] [[1, 1/4], [1, 1]] =
      [[densityEntry 1 3 1, densityEntry 20 (43/2) (1/4)],
       [densityEntry 1 2 1, densityEntry 20 21 1]] := by
  simp [probs, densityRow, List.range_succ]

/-- Evaluation of `singlePredict` on the spec scenario's fitted model. -/
theorem scenario_single :
    singlePredict ⟨some [0, 1], some [[3, 43/2], [2, 21]], some [[1, 1/4], [1, 1]]⟩ [1, 20] =
      .ok (some 1) := by
  have h0 : singlePredict ⟨some [0, 1], some [[3, 43/2], [2, 21]], some [[1, 1/4], [1, 1]]⟩
      [1, 20] =
      .ok ([0, 1][argMaxTF ((probs [1, 20] [[3, 43/2], [2, 21]]
        [[1, 1/4], [1, 1]]).map prodFV)]?) := by
    simp [singlePredict, headI]
  rw [h0, scenario_probs]
  rw [densityEntry_eq_val 1 3 1 one_pos,
    densityEntry_eq_val 20 (43/2) (1/4) (by norm_num),
    densityEntry_eq_val 1 2 1 one_pos,
    densityEntry_eq_val 20 21 1 one_pos]
  have hp0 := densityVal_pos 1 3 1 one_pos
  have hp2 := densityVal_pos 1 2 1 one_pos
  simp only [List.map_cons, List.map_nil,
    prodFV_pair_fin_pos _ _ hp0, prodFV_pair_fin_pos _ _ hp2]
  rw [argMaxTF_pair_of_gt _ _ ?hgt]
  case hgt =>
    rw [FV.gt_fin_fin]
    simpa [one_mul] using scenario_ineq
  rfl

/-- C1: fitting on `X = [[1,20],[2,21],[3,22],[4,22]]`, `y = [1,0,1,0]`
yields `ClassCatalog = [0,1]`, mean rows `[3, 21.5]` (class 0) and
`[2, 21]` (class 1), variance rows `[1, 0.25]` and `[1, 1]` (population
variance), and predicting `[[1,20]]` returns `[1]`. -/
theorem scenario_C1 :
    fit initState [[1, 20], [2, 21], [3, 22], [4, 22]] [1, 0, 1, 0] =
      .ok ⟨some [0, 1], some [[3, 43/2], [2, 21]], some [[1, 1/4], [1, 1]]⟩ ∧
    predict ⟨some [0, 1], some [[3, 43/2], [2, 21]], some [[1, 1/4], [1, 1]]⟩ [[1, 20]] =
      .ok [some 1] := by
  constructor
  · have h0 : fit initState [[1, 20], [2, 21], [3, 22], [4, 22]] [1, 0, 1, 0] =
        .ok { classCategories :=
                some (fitModel [[1, 20], [2, 21], [3, 22], [4, 22]] [1, 0, 1, 0]).classCategories
              mean := some (fitModel [[1, 20], [2, 21], [3, 22], [4, 22]] [1, 0, 1, 0]).mean
              variance :=
                some (fitModel [[1, 20], [2, 21], [3, 22], [4, 22]] [1, 0, 1, 0]).variance } :=
      rfl
    rw [h0, scenario_fitModel]
  · rw [predict_singleton, scenario_single]
    rfl

theorem prodFV_single_fin (a : ℝ) : prodFV [.fin a] = .fin (1 * a) := by
  simp only [prodFV, List.foldl_cons, List.foldl_nil]
  rw [FV.mul_fin_fin_posL 1 a one_pos]

theorem prodFV_single_nan : prodFV [FV.nan] = FV.nan := by
  simp only [prodFV, List.foldl_cons, List.foldl_nil]
  exact FV.mul_nan_right _

/-- Concrete fit where the single-row class `5` lands at catalog index 1. -/
theorem cex_fitModel :
    fitModel [[0], [1], [10]] [0, 0, 5] = ⟨[0, 5], [[1/2], [10]], [[1/4], [0]]⟩ := by
  have hcats : classCatalog [0, 0, 5] = [0, 5] := by decide
  simp only [fitModel, hcats]
  norm_num [separate, separateStep, List.foldl, moments, colMean, colVariance,
    colVals, headI, List.zip, List.zipWith, List.filter, List.map, List.range_succ,
    List.sum_cons, List.head?, List.getD]

theorem cex_probs :
    probs [10] [[1/2], [10]] [[1/4], [0]] =
      [[densityEntry 10 (1/2) (1/4)], [densityEntry 10 10 0]] := by
  simp [probs, densityRow, List.range_succ]

/-- Predicting the single-sample class's own row: its score is NaN, the
other class's positive score was installed first, and `argMax` keeps
index 0. -/
theorem cex_single :
    singlePredict ⟨some [0, 5], some [[1/2], [10]], some [[1/4], [0]]⟩ [10] =
      .ok (some 0) := by
  have h0 : singlePredict ⟨some [0, 5], some [[1/2], [10]], some [[1/4], [0]]⟩ [10] =
      .ok ([0, 5][argMaxTF ((probs [10] [[1/2], [10]] [[1/4], [0]]).map prodFV)]?) := by
    simp [singlePredict, headI]
  rw [h0, cex_probs]
  rw [densityEntry_eq_val 10 (1/2) (1/4) (by norm_num),
    show densityEntry 10 10 0 = FV.nan from densityEntry_zero_var_at_mean 10]
  simp only [List.map_cons, List.map_nil, prodFV_single_fin, prodFV_single_nan]
  rw [argMaxTF_pair_of_not_gt _ _ (FV.not_nan_gt _)]
  rfl

/-- C5 counterexample: for `X = [[0],[1],[10]]`, `y = [0,0,5]` class `5`
has exactly one training row `[10]` (and variance row `[0]`), yet
predicting that exact row returns label `0`, not `5`: the NaN score of the
zero-variance class never beats the running maximum of class `0` installed
at index 0 by the `tf` argMax kernel. -/
theorem single_sample_counterexample_C5 :
    specClassRows [[0], [1], [10]] [0, 0, 5] 5 = [[10]] ∧
    fit initState [[0], [1], [10]] [0, 0, 5] =
      .ok ⟨some [0, 5], some [[1/2], [10]], some [[1/4], [0]]⟩ ∧
    predict ⟨some [0, 5], some [[1/2], [10]], some [[1/4], [0]]⟩ [[10]] = .ok [some 0] ∧
    (some (0 : Nat) ≠ some 5) := by
  refine ⟨rfl, ?_, ?_, by decide⟩
  · have h0 : fit initState [[0], [1], [10]] [0, 0, 5] =
        .ok { classCategories := some (fitModel [[0], [1], [10]] [0, 0, 5]).classCategories
              mean := some (fitModel [[0], [1], [10]] [0, 0, 5]).mean
              variance := some (fitModel [[0], [1], [10]] [0, 0, 5]).variance } := rfl
    rw [h0, cex_fitModel]
  · rw [predict_singleton, cex_single]
    rfl

/-- C5 (amended): a class with exactly one training row gets variance 0 in
every feature; predicting that exact row returns that class's label when
the class sits at index 0 of the catalog (its NaN score is installed as
the initial maximum and never replaced).  When it sits at a later index
the NaN score never beats the initial maximum and another class is
returned (see the counterexample). -/
theorem single_sample_spec_C5 (X : List (List ℚ)) (y : List Nat) (d c : Nat) (r : List ℚ)
    (hlen : X.length = y.length) (hrect : ∀ q ∈ X, q.length = d) (hd : 0 < d)
    (hone : specClassRows X y c = [r]) :
    (∀ i, i < (classCatalog y).length → (classCatalog y).getD i 0 = c →
        ∀ j, j < d → ((fitModel X y).variance.getD i []).getD j 0 = 0) ∧
    (∀ rest, classCatalog y = c :: rest →
        predict ⟨some (fitModel X y).classCategories, some (fitModel X y).mean,
                 some (fitModel X y).variance⟩ [r] = .ok [some c]) := by
  constructor
  · intro i hi hci j hj
    have h := ((fitModel_moments X y d hlen hrect).2.2.2 i hi).2.2 j hj
    rw [h.2, hci]
    simp [specVar, specMean, hone]
  · intro rest hcat
    have hrX : r ∈ X :=
      specClassRows_subset X y c r (by rw [hone]; exact List.mem_cons_self r [])
    have hr : r.length = d := hrect r hrX
    have hsep : separate (X.zip y) c = [r] := by
      rw [separate_eq_specClassRows, hone]
    have hmean : (fitModel X y).mean =
        (List.range d).map (colMean [r]) ::
          rest.map (fun k => (moments (separate (X.zip y) k)).1) := by
      have h1 : (fitModel X y).mean =
          (classCatalog y).map (fun k => (moments (separate (X.zip y) k)).1) := by
        simp [fitModel, List.map_map]
      rw [h1, hcat, List.map_cons, hsep]
      congr 1
      simp [moments, headI, hr]
    have hvar : (fitModel X y).variance =
        (List.range d).map (colVariance [r]) ::
          rest.map (fun k => (moments (separate (X.zip y) k)).2) := by
      have h1 : (fitModel X y).variance =
          (classCatalog y).map (fun k => (moments (separate (X.zip y) k)).2) := by
        simp [fitModel, List.map_map]
      rw [h1, hcat, List.map_cons, hsep]
      congr 1
      simp [moments, headI, hr]
    have hcc : (fitModel X y).classCategories = c :: rest := hcat
    rw [predict_singleton]
    have hhead : (headI (fitModel X y).mean).length = d := by
      rw [hmean]; simp [headI]
    have hstep : singlePredict ⟨some (fitModel X y).classCategories,
        some (fitModel X y).mean, some (fitModel X y).variance⟩ r =
        .ok ((fitModel X y).classCategories[argMaxTF
          ((probs r (fitModel X y).mean (fitModel X y).variance).map prodFV)]?) := by
      simp only [singlePredict]
      rw [if_neg (not_ne_iff.mpr (hr.trans hhead.symm))]
    rw [hstep]
    have hplen : (fitModel X y).mean.length = rest.length + 1 := by
      rw [hmean]; simp
    have hM0 : (fitModel X y).mean.getD 0 [] = (List.range d).map (colMean [r]) := by
      rw [hmean]; rfl
    have hV0 : (fitModel X y).variance.getD 0 [] = (List.range d).map (colVariance [r]) := by
      rw [hvar]; rfl
    have hprobs : ∃ tail, probs r (fitModel X y).mean (fitModel X y).variance =
        densityRow r ((List.range d).map (colMean [r]))
          ((List.range d).map (colVariance [r])) :: tail := by
      unfold probs
      rw [hplen, List.range_succ_eq_map, List.map_cons, hM0, hV0]
      exact ⟨_, rfl⟩
    obtain ⟨tail, htail⟩ := hprobs
    have h0d : 0 < (List.range d).length := by simpa using hd
    have hnan : prodFV (densityRow r ((List.range d).map (colMean [r]))
        ((List.range d).map (colVariance [r]))) = FV.nan := by
      refine (densityRow_zero_var_nan r _ _ 0 ?_ ?_ ?_).2
      · rw [hr]; exact hd
      · rw [getD_map_eq _ _ 0 0 h0d, List.getElem_range]
        simp [colVariance, colVals, colMean]
      · rw [getD_map_eq _ _ 0 0 h0d, List.getElem_range]
        simp [colMean, colVals]
    rw [htail, List.map_cons, hnan, argMaxTF_nan_head, hcc]
    simp [Except.map]

/-- Witness for the amended C5: class `5` has the single row `[0]` and
sits at catalog index 0 of `y = [5, 7, 7]`. -/
theorem single_sample_spec_C5_witness :
    (∀ i, i < (classCatalog [5, 7, 7]).length → (classCatalog [5, 7, 7]).getD i 0 = 5 →
        ∀ j, j < 1 →
          ((fitModel [[0], [10], [11]] [5, 7, 7]).variance.getD i []).getD j 0 = 0) ∧
    (∀ rest, classCatalog [5, 7, 7] = 5 :: rest →
        predict ⟨some (fitModel [[0], [10], [11]] [5, 7, 7]).classCategories,
                 some (fitModel [[0], [10], [11]] [5, 7, 7]).mean,
                 some (fitModel [[0], [10], [11]] [5, 7, 7]).variance⟩ [[0]] =
          .ok [some 5]) :=
  single_sample_spec_C5 [[0], [10], [11]] [5, 7, 7] 1 5 [0]
    rfl (by decide) (by decide) rfl

end GNB
